import Mathlib

/-!
Verification of the LeKiwi teleoperation bridge
(`lerobot/common/robots/lekiwi/daemon_lekiwi.py` and
`lerobot/scripts/run_mobile_so100.py`).

The daemon-side observation reconstruction (`get_data`, `get_observation`),
the connection lifecycle, the wheel kinematics (`degps_to_raw`,
`raw_to_degps`, `body_to_wheel_raw`, `wheel_raw_to_body`) and the remote
agent's command dispatch and watchdog are embedded shallowly.  Machine
integers are modelled with `Nat`/`Int` (raw wheel words use `Nat` bitwise
operators, matching Python's arbitrary-precision `int` with `|`/`&`),
real-valued computations with `Real` (the idealisation of the Python
floats), times with `Rat`, Python dictionaries with association lists,
and exceptions with `Except`/explicit fallthrough cases.
-/

/-! ## Daemon-side data model (observation reconstruction) -/

/-- An image held by the daemon: either a decoded camera frame (abstracted
by an identifier) or the all-zero "black" placeholder
`np.zeros((h, w, c))` built by `get_observation` for a missing camera. -/
inductive CamImage
  | black (h w c : ℕ)
  | frame (id : ℕ)
deriving DecidableEq, Repr

/-- One entry of the `images` dict of an observation message, as seen by the
decode loop of `get_data`:
* `empty`   – a falsy payload (`""`), skipped by the `if image_b64:` guard;
* `corrupt` – base64/buffer conversion succeeds but `cv2.imdecode` returns
  `None`, so the `frame_candidate is not None` guard skips the camera;
* `bad`     – `base64.b64decode`/`np.frombuffer` raises, aborting the whole
  decode into the `except` handler;
* `ok id`   – the payload decodes to a frame. -/
inductive B64Payload
  | empty
  | corrupt
  | bad
  | ok (id : ℕ)
deriving DecidableEq, Repr

/-- The `follower_arm_state` field of an observation message:
* `absent`    – the key is missing (`observation.get(..., None)` is `None`);
* `malformed` – present, but `torch.tensor(new_arm_state)` raises;
* `ok v`      – present and convertible to a tensor (modelled as a list). -/
inductive ArmField
  | absent
  | malformed
  | ok (v : List ℚ)
deriving DecidableEq, Repr

/-- A received observation message after `recv_string`.  `parseOk = false`
models `json.loads` (or the subsequent `.get` attribute access) raising. -/
structure ObsMsg where
  parseOk : Bool
  images : List (String × B64Payload)
  speed : List (String × ℤ)
  arm : ArmField
deriving DecidableEq, Repr

/-- The three "last known" caches owned by `DaemonLeKiwiRobot`:
`self.last_frames`, `self.last_present_speed`,
`self.last_remote_arm_state`. -/
structure DaemonState where
  last_frames : List (String × CamImage)
  last_present_speed : List (String × ℤ)
  last_remote_arm_state : List ℚ
deriving DecidableEq, Repr

/-- The caches as initialised in `__init__`: empty dicts and
`torch.zeros(6)`. -/
def initialDaemonState : DaemonState :=
  ⟨[], [], List.replicate 6 0⟩

/-- The triple `(self.last_frames, self.last_present_speed,
self.last_remote_arm_state)` that `get_data` returns on every fallback
path. -/
def cachedTriple (s : DaemonState) :
    List (String × CamImage) × List (String × ℤ) × List ℚ :=
  (s.last_frames, s.last_present_speed, s.last_remote_arm_state)

/-- Whether some camera payload raises during the image conversion loop of
`get_data` (sending control to the `except` handler). -/
def hasBadImage (m : ObsMsg) : Bool :=
  m.images.any fun p => decide (p.2 = B64Payload.bad)

/-- The local `frames` dict built by the conversion loop of `get_data`:
exactly the successfully decoded cameras, in message order. -/
def decodedFrames (m : ObsMsg) : List (String × CamImage) :=
  m.images.filterMap fun p =>
    match p.2 with
    | B64Payload.ok i => some (p.1, CamImage.frame i)
    | _ => none

/-- `DaemonLeKiwiRobot.get_data`.  The argument `msg` is the last drained
message of the 15 ms poll window: `none` when the poll returned nothing (or
draining produced no message), `some m` otherwise.  Returns the updated
caches together with the returned `(frames, present_speed, arm_state)`
triple.  The branch structure mirrors the source:
* no message → return all cached values, caches untouched;
* `json.loads` (or field access) raises → `except` path, caches untouched;
* a camera payload raises → `except` path, caches untouched (the local
  `frames` dict is discarded);
* `new_arm_state is None` → `else` branch: return cached values;
* `new_arm_state` present but `torch.tensor` raises → the assignment
  `self.last_frames = frames` has already executed, so the `except` path
  returns the *new* frames with the old speed/arm caches;
* otherwise adopt the new frames, speed and arm state wholesale. -/
def get_data (s : DaemonState) (msg : Option ObsMsg) :
    DaemonState × (List (String × CamImage) × List (String × ℤ) × List ℚ) :=
  match msg with
  | none => (s, cachedTriple s)
  | some m =>
    if m.parseOk = false then (s, cachedTriple s)
    else if hasBadImage m then (s, cachedTriple s)
    else
      match m.arm with
      | ArmField.absent => (s, cachedTriple s)
      | ArmField.malformed =>
          ({ s with last_frames := decodedFrames m },
           (decodedFrames m, s.last_present_speed, s.last_remote_arm_state))
      | ArmField.ok v =>
          (⟨decodedFrames m, m.speed, v⟩, (decodedFrames m, m.speed, v))

/-- A configured camera of the daemon (name plus the configured height,
width and channel count used for the black placeholder). -/
structure CamCfg where
  name : String
  height : ℕ
  width : ℕ
  channels : ℕ
deriving DecidableEq, Repr

/-- The per-camera loop at the end of `get_observation`: for each
configured camera take `frames.get(cam_name, None)`, substituting the black
placeholder `np.zeros((h, w, c))` when the camera is absent. -/
def observationImages (cams : List CamCfg) (frames : List (String × CamImage)) :
    List (String × CamImage) :=
  cams.map fun cam =>
    (cam.name, (frames.lookup cam.name).getD
      (CamImage.black cam.height cam.width cam.channels))

/-! ## Connection lifecycle -/

/-- The error taxonomy of the lifecycle guards:
`DeviceAlreadyConnectedError` and `DeviceNotConnectedError`. -/
inductive RobotErr
  | alreadyConnected
  | notConnected
deriving DecidableEq, Repr

/-- `DaemonLeKiwiRobot.connect`: result is the new `is_connected` flag and
the raised error, if any.  When already connected the raise happens before
any assignment, so the flag is returned unchanged. -/
def connectTransition (is_connected : Bool) : Bool × Option RobotErr :=
  if is_connected then (is_connected, some RobotErr.alreadyConnected)
  else (true, none)

/-- `DaemonLeKiwiRobot.disconnect`: raises `DeviceNotConnectedError` when
not connected (flag unchanged), otherwise closes the sockets and clears the
flag. -/
def disconnectTransition (is_connected : Bool) : Bool × Option RobotErr :=
  if is_connected = false then (is_connected, some RobotErr.notConnected)
  else (false, none)

/-- The connectivity guard of `DaemonLeKiwiRobot.send_action`.  Only the
guard is modelled: the connected path performs hardware writes through
`self.actuators`, outside this embedding. -/
def send_action (is_connected : Bool) : Except RobotErr Unit :=
  if is_connected = false then Except.error RobotErr.notConnected
  else Except.ok ()

/-! ## Wheel raw encoding and kinematics -/

/-- `steps_per_deg = 4096.0 / 360.0`. -/
noncomputable def steps_per_deg : ℝ := 4096 / 360

/-- Python's `round` (round half to even) on a real argument. -/
noncomputable def pyround (x : ℝ) : ℤ :=
  if Int.fract x = 1 / 2 then (if Even ⌊x⌋ then ⌊x⌋ else ⌊x⌋ + 1)
  else round x

/-- `DaemonLeKiwiRobot.degps_to_raw`.  `int(round(...))` of the
nonnegative `speed_in_steps` is `(pyround _).toNat`; the clamp and the two
bitwise branches follow the source.  The result is a natural number since
every branch produces one. -/
noncomputable def degps_to_raw (degps : ℝ) : ℕ :=
  if degps < 0 then
    (if 0x7FFF < (pyround (|degps| * steps_per_deg)).toNat then 0x7FFF
     else (pyround (|degps| * steps_per_deg)).toNat) ||| 0x8000
  else
    (if 0x7FFF < (pyround (|degps| * steps_per_deg)).toNat then 0x7FFF
     else (pyround (|degps| * steps_per_deg)).toNat) &&& 0x7FFF

/-- `DaemonLeKiwiRobot.raw_to_degps`.  The argument is an arbitrary Python
integer; `Int` bitwise operators share Python's two's-complement
semantics.  `if raw_speed & 0x8000:` tests truthiness, i.e. `≠ 0`. -/
noncomputable def raw_to_degps (raw_speed : ℤ) : ℝ :=
  if Int.land raw_speed 0x8000 ≠ 0 then
    -((Int.land raw_speed 0x7FFF : ℝ) / steps_per_deg)
  else (Int.land raw_speed 0x7FFF : ℝ) / steps_per_deg

/-- Default `wheel_radius = 0.05` (metres). -/
noncomputable def wheel_radius : ℝ := 0.05

/-- Default `base_radius = 0.125` (metres). -/
noncomputable def base_radius : ℝ := 0.125

/-- Default `max_raw = 3000` (ticks). -/
def max_raw : ℕ := 3000

/-- The wheel mounting angles `np.radians(np.array([240, 120, 0]) - 90)`,
i.e. 150°, 30° and −90° in radians. -/
noncomputable def wheelAngles : Fin 3 → ℝ :=
  ![150 * (Real.pi / 180), 30 * (Real.pi / 180), (-90) * (Real.pi / 180)]

/-- Wheel angular speed in deg/s computed by `body_to_wheel_raw` before
scaling: row `i` of the kinematic matrix
`[cos aᵢ, sin aᵢ, base_radius]` applied to `[x, y, θ·π/180]`, divided by
the wheel radius and converted from rad/s to deg/s. -/
noncomputable def wheelDegps (x y θ : ℝ) (i : Fin 3) : ℝ :=
  ((Real.cos (wheelAngles i) * x + Real.sin (wheelAngles i) * y
      + base_radius * (θ * (Real.pi / 180))) / wheel_radius)
    * (180 / Real.pi)

/-- The list `raw_floats = [abs(degps) * steps_per_deg for degps in
wheel_degps]` of `body_to_wheel_raw`, indexed. -/
noncomputable def rawFloats (x y θ : ℝ) (i : Fin 3) : ℝ :=
  |wheelDegps x y θ i| * steps_per_deg

/-- `max_raw_computed = max(raw_floats)`. -/
noncomputable def maxRawComputed (x y θ : ℝ) : ℝ :=
  max (rawFloats x y θ 0) (max (rawFloats x y θ 1) (rawFloats x y θ 2))

/-- The wheel deg/s after the saturation block of `body_to_wheel_raw`:
scaled by `max_raw / max_raw_computed` when
`max_raw_computed > max_raw`, untouched otherwise. -/
noncomputable def scaledDegps (x y θ : ℝ) (i : Fin 3) : ℝ :=
  if maxRawComputed x y θ > (max_raw : ℝ) then
    wheelDegps x y θ i * ((max_raw : ℝ) / maxRawComputed x y θ)
  else wheelDegps x y θ i

/-- `DaemonLeKiwiRobot.body_to_wheel_raw` (with the default parameters):
the raw integer command of wheel `i`. -/
noncomputable def body_to_wheel_raw (x y θ : ℝ) (i : Fin 3) : ℕ :=
  degps_to_raw (scaledDegps x y θ i)

/-- Dictionary key `"left_wheel"`. -/
def kLeftWheel : String := "left_wheel"

/-- Dictionary key `"back_wheel"`. -/
def kBackWheel : String := "back_wheel"

/-- Dictionary key `"right_wheel"`. -/
def kRightWheel : String := "right_wheel"

/-- The dictionary returned by `body_to_wheel_raw`. -/
noncomputable def body_to_wheel_raw_dict (x y θ : ℝ) : List (String × ℤ) :=
  [(kLeftWheel, (body_to_wheel_raw x y θ 0 : ℤ)),
   (kBackWheel, (body_to_wheel_raw x y θ 1 : ℤ)),
   (kRightWheel, (body_to_wheel_raw x y θ 2 : ℤ))]

/-- The inverse-kinematics step of `wheel_raw_to_body`: from the decoded
wheel speeds in deg/s, compute rad/s, wheel linear speeds, apply
`np.linalg.inv(m)` and convert the angular component back to deg/s.  The
entries written here are the exact inverse of the kinematic matrix `m`
(rows `[cos aᵢ, sin aᵢ, base_radius]`), which is what `np.linalg.inv`
computes; `kinMatrix_left_inverse` and `kinMatrix_right_inverse` below
certify them. -/
noncomputable def bodyFromWheelDegps (d0 d1 d2 : ℝ) : ℝ × ℝ × ℝ :=
  (-(Real.sqrt 3) / 3 * (d0 * (Real.pi / 180) * wheel_radius)
     + Real.sqrt 3 / 3 * (d1 * (Real.pi / 180) * wheel_radius)
     + 0 * (d2 * (Real.pi / 180) * wheel_radius),
   1 / 3 * (d0 * (Real.pi / 180) * wheel_radius)
     + 1 / 3 * (d1 * (Real.pi / 180) * wheel_radius)
     + -(2 / 3) * (d2 * (Real.pi / 180) * wheel_radius),
   (1 / (3 * base_radius) * (d0 * (Real.pi / 180) * wheel_radius)
     + 1 / (3 * base_radius) * (d1 * (Real.pi / 180) * wheel_radius)
     + 1 / (3 * base_radius) * (d2 * (Real.pi / 180) * wheel_radius))
    * (180 / Real.pi))

/-- `DaemonLeKiwiRobot.wheel_raw_to_body` (default parameters): extract
the three raw values with `wheel_raw.get(key, 0)`, decode each with
`raw_to_degps`, and solve the inverse kinematics. -/
noncomputable def wheel_raw_to_body (wheel_raw : List (String × ℤ)) : ℝ × ℝ × ℝ :=
  bodyFromWheelDegps
    (raw_to_degps ((wheel_raw.lookup kLeftWheel).getD 0))
    (raw_to_degps ((wheel_raw.lookup kBackWheel).getD 0))
    (raw_to_degps ((wheel_raw.lookup kRightWheel).getD 0))

/-- The observation dict built by `get_observation`: the arm part and the
body part of `observation.state` (the latter with x, y converted to mm/s),
and the per-camera images. -/
structure ObsDict where
  armPart : List ℚ
  bodyMM : ℝ × ℝ × ℝ
  images : List (String × CamImage)

/-- `DaemonLeKiwiRobot.get_observation`: raises
`DeviceNotConnectedError` when not connected; otherwise runs `get_data`,
converts the cached/new `present_speed` dict through `wheel_raw_to_body`
(x and y scaled by 1000 to mm/s), and fills per-camera images with the
black placeholder where missing.  Returns the updated caches alongside. -/
noncomputable def get_observation (is_connected : Bool) (cams : List CamCfg)
    (s : DaemonState) (msg : Option ObsMsg) :
    Except RobotErr (DaemonState × ObsDict) :=
  if is_connected = false then Except.error RobotErr.notConnected
  else
    let r := get_data s msg
    let body := wheel_raw_to_body r.2.2.1
    Except.ok (r.1,
      ⟨r.2.2.2, (body.1 * 1000, body.2.1 * 1000, body.2.2),
       observationImages cams r.2.1⟩)

/-! ## Remote agent (`run_mobile_so100.py`): command dispatch and
watchdog -/

/-- The `arm_positions` field of a command message: either not a list
(rejected by the `isinstance` check) or a list of positions. -/
inductive ArmPositions
  | notList
  | ofList (ps : List ℚ)
deriving DecidableEq, Repr

/-- `arm_motor_ids`, the expected arm motors in write order. -/
def arm_motor_ids : List String :=
  ["shoulder_pan", "shoulder_lift", "elbow_flex", "wrist_flex",
   "wrist_roll", "gripper"]

/-- The `Goal_Position` writes performed for one `arm_positions` field:
none when it is not a list or shorter than `arm_motor_ids` (log + skip);
otherwise `zip(arm_motor_ids, arm_positions, strict=False)`, which
truncates to the six motors and silently ignores any extra positions. -/
def armWrites (f : ArmPositions) : List (String × ℚ) :=
  match f with
  | ArmPositions.notList => []
  | ArmPositions.ofList ps =>
      if ps.length < arm_motor_ids.length then []
      else arm_motor_ids.zip ps

/-- A command message drained from the command socket.  `parseOk = false`
models `json.loads` raising (caught, message ignored). -/
structure CmdMsg where
  parseOk : Bool
  arm : Option ArmPositions
  vel : Option (List (String × ℤ))
deriving DecidableEq, Repr

/-- The arm writes performed while handling one drained message. -/
def msgArmWrites (m : CmdMsg) : List (String × ℚ) :=
  if m.parseOk then
    match m.arm with
    | none => []
    | some f => armWrites f
  else []

/-- Dictionary key `"wheel_1"`. -/
def kWheel1 : String := "wheel_1"

/-- Dictionary key `"wheel_2"`. -/
def kWheel2 : String := "wheel_2"

/-- Dictionary key `"wheel_3"`. -/
def kWheel3 : String := "wheel_3"

/-- `command_speeds = [int(raw_command.get(f"wheel_{i}", 0)) for i in
[1, 2, 3]]`. -/
def commandSpeeds (d : List (String × ℤ)) : ℤ × ℤ × ℤ :=
  ((d.lookup kWheel1).getD 0, (d.lookup kWheel2).getD 0,
   (d.lookup kWheel3).getD 0)

/-- Modelled from the spec: `MobileSO100.stop` (class not under `src/`)
applies the stop command, all zero wheel velocities. -/
def stopCommand : ℤ × ℤ × ℤ := (0, 0, 0)

/-- The remote agent's loop state: `last_cmd_time` and the wheel command
currently applied to the base (the argument of the last
`robot.set_velocity` / `robot.stop`). -/
structure AgentState where
  last_cmd_time : ℚ
  wheel_speeds : ℤ × ℤ × ℤ
deriving DecidableEq, Repr

/-- Handling of one drained command message inside the inner `while` of
the control loop: a `raw_velocity` field applies `robot.set_velocity` and
records `last_cmd_time = now`; everything else leaves the wheel state
alone. -/
def applyCmd (now : ℚ) (st : AgentState) (m : CmdMsg) : AgentState :=
  if m.parseOk = false then st
  else
    match m.vel with
    | none => st
    | some d => { last_cmd_time := now, wheel_speeds := commandSpeeds d }

/-- Draining the command socket: all pending messages are handled in
arrival order. -/
def drainCmds (now : ℚ) (st : AgentState) (msgs : List CmdMsg) : AgentState :=
  msgs.foldl (applyCmd now) st

/-- The watchdog that follows the drain: `if now - last_cmd_time > 0.5:
robot.stop(); last_cmd_time = now`. -/
def watchdogStep (now : ℚ) (st : AgentState) : AgentState :=
  if now - st.last_cmd_time > 1 / 2 then
    { last_cmd_time := now, wheel_speeds := stopCommand }
  else st

/-- One iteration of the control loop restricted to command handling:
drain all pending messages, then run the watchdog. -/
def controlCycle (st : AgentState) (now : ℚ) (msgs : List CmdMsg) : AgentState :=
  watchdogStep now (drainCmds now st msgs)

/-! ## Concrete instances used by counterexamples and witnesses -/

/-- Camera name used in concrete scenarios. -/
def kCamA : String := "ca"

/-- Second camera name used in concrete scenarios. -/
def kCamB : String := "cb"

/-- A daemon state whose cache holds a previously decoded frame for both
cameras. -/
def c1State : DaemonState :=
  ⟨[(kCamA, CamImage.frame 1), (kCamB, CamImage.frame 2)], [],
   List.replicate 6 0⟩

/-- A message whose payload for camera `kCamA` is corrupt
(`cv2.imdecode` returns `None`) while camera `kCamB` decodes, with a valid
arm state. -/
def c1Msg : ObsMsg :=
  ⟨true, [(kCamA, B64Payload.corrupt), (kCamB, B64Payload.ok 3)], [],
   ArmField.ok [1, 2, 3, 4, 5, 6]⟩

/-- The two configured cameras of the concrete scenarios. -/
def c1Cams : List CamCfg :=
  [⟨kCamA, 4, 6, 3⟩, ⟨kCamB, 4, 6, 3⟩]

/-- A daemon state with one cached frame, used by the C3 counterexample. -/
def c3State : DaemonState :=
  ⟨[(kCamA, CamImage.frame 1)], [], List.replicate 6 0⟩

/-- A message that parses, decodes its one image, and then raises inside
`torch.tensor(new_arm_state)` — after `self.last_frames` has already been
reassigned. -/
def c3Msg : ObsMsg :=
  ⟨true, [(kCamA, B64Payload.ok 2)], [], ArmField.malformed⟩

/-! ## Theorems: observation fallback, lifecycle, agent loop -/

/-- Unfolding lemma for `get_data` on a received message. -/
theorem get_data_some (s : DaemonState) (m : ObsMsg) :
    get_data s (some m) =
      if m.parseOk = false then (s, cachedTriple s)
      else if hasBadImage m then (s, cachedTriple s)
      else
        match m.arm with
        | ArmField.absent => (s, cachedTriple s)
        | ArmField.malformed =>
            ({ s with last_frames := decodedFrames m },
             (decodedFrames m, s.last_present_speed, s.last_remote_arm_state))
        | ArmField.ok v =>
            (⟨decodedFrames m, m.speed, v⟩, (decodedFrames m, m.speed, v)) :=
  rfl

/-- Unfolding lemma for `armWrites` on a list-shaped field. -/
theorem armWrites_ofList (ps : List ℚ) :
    armWrites (ArmPositions.ofList ps) =
      if ps.length < arm_motor_ids.length then [] else arm_motor_ids.zip ps :=
  rfl

/-- Claim C8: when no new message arrives within the bounded 15 ms poll
window, `get_data` returns a snapshot identical by value to the cached one
(frames, present speed, arm state) and raises no error, leaving the caches
untouched. -/
theorem c8_no_message_returns_cached_snapshot (s : DaemonState) :
    get_data s none =
      (s, (s.last_frames, s.last_present_speed, s.last_remote_arm_state)) :=
  rfl

/-- Claim C7: `connect` on an already-connected daemon raises
`DeviceAlreadyConnectedError` leaving the connection flag unchanged, while
`disconnect`, `get_observation` and `send_action` on a disconnected daemon
raise `DeviceNotConnectedError`. -/
theorem c7_lifecycle_guards :
    connectTransition true = (true, some RobotErr.alreadyConnected) ∧
    disconnectTransition false = (false, some RobotErr.notConnected) ∧
    (∀ (cams : List CamCfg) (s : DaemonState) (msg : Option ObsMsg),
      get_observation false cams s msg = Except.error RobotErr.notConnected) ∧
    send_action false = Except.error RobotErr.notConnected :=
  ⟨rfl, rfl, fun _ _ _ => rfl, rfl⟩

/-- Claim C2: in any control-loop cycle in which, after draining the
command socket, more than 0.5 s have elapsed since the last accepted
command, the wheel command applied that cycle is the stop command (all
zero velocities), regardless of the content of any previously buffered
command. -/
theorem c2_watchdog_forces_stop (st : AgentState) (now : ℚ)
    (msgs : List CmdMsg)
    (h : now - (drainCmds now st msgs).last_cmd_time > 1 / 2) :
    (controlCycle st now msgs).wheel_speeds = stopCommand := by
  unfold controlCycle watchdogStep
  rw [if_pos h]

/-- Witness for C2: a concrete starved cycle (last command at t = 0,
current cycle at t = 1, only a command-free message buffered) applies the
stop command even though the previous wheel command was nonzero. -/
theorem c2_watchdog_forces_stop_witness :
    (1 : ℚ) - (drainCmds 1 ⟨0, (100, -100, 0)⟩ [⟨true, none, none⟩]).last_cmd_time
        > 1 / 2 ∧
    (controlCycle ⟨0, (100, -100, 0)⟩ 1 [⟨true, none, none⟩]).wheel_speeds
        = stopCommand :=
  ⟨by norm_num [drainCmds, applyCmd],
   c2_watchdog_forces_stop _ _ _ (by norm_num [drainCmds, applyCmd])⟩

/-- Counterexample to claim C9: an `arm_positions` list of length 7 does
not match the expected motor count (6), yet the agent does not skip it —
it writes the first six positions to the motors (Python `zip` truncates
silently). -/
theorem c9_counterexample :
    (List.replicate 7 (0 : ℚ)).length ≠ arm_motor_ids.length ∧
    armWrites (ArmPositions.ofList (List.replicate 7 0)) ≠ [] := by
  constructor
  · decide
  · decide

/-- Claim C9 (amended): an `arm_positions` field is logged and skipped (no
motor writes) when it is not a list or when it is *shorter* than the
expected motor count; whenever its length is at least the expected count,
the first six positions are written (extra entries are silently ignored),
and the process does not crash in either case. -/
theorem c9_arm_dispatch (ps qs : List ℚ)
    (hshort : ps.length < arm_motor_ids.length)
    (hlong : arm_motor_ids.length ≤ qs.length) :
    armWrites (ArmPositions.ofList ps) = [] ∧
    armWrites (ArmPositions.ofList qs) = arm_motor_ids.zip qs ∧
    (arm_motor_ids.zip qs).length = arm_motor_ids.length ∧
    armWrites ArmPositions.notList = [] := by
  refine ⟨?_, ?_, ?_, rfl⟩
  · rw [armWrites_ofList, if_pos hshort]
  · rw [armWrites_ofList, if_neg (not_lt.mpr hlong)]
  · rw [List.length_zip]
    exact min_eq_left hlong

/-- Witness for the amended C9: a 3-element list is skipped, while a
7-element list is written truncated to the six motors. -/
theorem c9_arm_dispatch_witness :
    ([0, 0, 0] : List ℚ).length < arm_motor_ids.length ∧
    arm_motor_ids.length ≤ (List.replicate 7 (0 : ℚ)).length ∧
    armWrites (ArmPositions.ofList [0, 0, 0]) = [] ∧
    armWrites (ArmPositions.ofList (List.replicate 7 0))
      = arm_motor_ids.zip (List.replicate 7 0) :=
  ⟨by decide, by decide,
   (c9_arm_dispatch [0, 0, 0] (List.replicate 7 0) (by decide) (by decide)).1,
   (c9_arm_dispatch [0, 0, 0] (List.replicate 7 0) (by decide) (by decide)).2.1⟩

/-- Counterexample to claim C1: a message with a corrupt payload for
camera `kCamA` and a valid one for `kCamB` (arm state present).  Camera
`kCamA` had a previously cached frame, yet after `get_data` the cache no
longer holds it (the cache is replaced wholesale by the newly decoded
frames) and `get_observation`'s image for `kCamA` is the black
placeholder, not the previous frame. -/
theorem c1_counterexample :
    c1State.last_frames.lookup kCamA = some (CamImage.frame 1) ∧
    (get_data c1State (some c1Msg)).1.last_frames = [(kCamB, CamImage.frame 3)] ∧
    ((get_data c1State (some c1Msg)).1.last_frames.lookup kCamA = none) ∧
    (observationImages c1Cams (get_data c1State (some c1Msg)).2.1).lookup kCamA
      = some (CamImage.black 4 6 3) := by
  refine ⟨by decide, by decide, by decide, by decide⟩

/-- Claim C1 (amended): for a message that parses, whose image payloads
raise no exception, and whose arm state is present and convertible, the
valid cameras' frames replace the frame cache *wholesale*: the cache
afterwards holds exactly the newly decoded frames (so a corrupt camera's
previously cached frame is dropped rather than retained), and
`get_observation` returns the documented black placeholder for every
configured camera absent from the decoded frames. -/
theorem c1_partial_decode (s : DaemonState) (m : ObsMsg) (v : List ℚ)
    (hp : m.parseOk = true) (hb : hasBadImage m = false)
    (ha : m.arm = ArmField.ok v) :
    (get_data s (some m)).1.last_frames = decodedFrames m ∧
    (get_data s (some m)).2.1 = decodedFrames m ∧
    ∀ cams : List CamCfg, ∀ cam ∈ cams,
      (decodedFrames m).lookup cam.name = none →
      (cam.name, CamImage.black cam.height cam.width cam.channels) ∈
        observationImages cams (get_data s (some m)).2.1 := by
  have hget : get_data s (some m)
      = (⟨decodedFrames m, m.speed, v⟩, (decodedFrames m, m.speed, v)) := by
    rw [get_data_some, hp, hb, ha]
    simp
  refine ⟨by rw [hget], by rw [hget], ?_⟩
  intro cams cam hcam hnone
  rw [hget]
  have himg : (cam.name,
      CamImage.black cam.height cam.width cam.channels)
      = (fun c : CamCfg => (c.name, ((decodedFrames m).lookup c.name).getD
          (CamImage.black c.height c.width c.channels))) cam := by
    simp only [hnone, Option.getD_none]
  rw [observationImages, himg]
  exact List.mem_map_of_mem _ hcam

/-- Witness for the amended C1: the concrete corrupt/valid scenario.  The
cache afterwards holds only camera `kCamB`'s new frame, and camera
`kCamA` (absent from the decoded frames) maps to the black placeholder. -/
theorem c1_partial_decode_witness :
    (c1Msg.parseOk = true ∧ hasBadImage c1Msg = false ∧
      c1Msg.arm = ArmField.ok [1, 2, 3, 4, 5, 6]) ∧
    ((get_data c1State (some c1Msg)).1.last_frames = decodedFrames c1Msg ∧
     (get_data c1State (some c1Msg)).2.1 = decodedFrames c1Msg ∧
     ∀ cams : List CamCfg, ∀ cam ∈ cams,
       (decodedFrames c1Msg).lookup cam.name = none →
       (cam.name, CamImage.black cam.height cam.width cam.channels) ∈
         observationImages cams (get_data c1State (some c1Msg)).2.1) :=
  ⟨⟨by decide, by decide, by decide⟩,
   c1_partial_decode c1State c1Msg [1, 2, 3, 4, 5, 6]
     (by decide) (by decide) (by decide)⟩

/-- Counterexample to claim C3: a message that parses and whose images
decode, but whose arm state makes `torch.tensor` raise.  The exception is
caught, but the frames cache has *not* been left unchanged: the assignment
`self.last_frames = frames` ran before the raise, so both the cache and
the returned frames hold the new frame, not the previously cached one. -/
theorem c3_counterexample :
    (get_data c3State (some c3Msg)).1.last_frames ≠ c3State.last_frames ∧
    (get_data c3State (some c3Msg)).2.1 ≠ c3State.last_frames := by
  constructor
  · decide
  · decide

/-- Claim C3 (amended): every decode exception is caught locally and never
propagated, and the speed and arm caches are never changed by a failing
decode, with the cached speed and arm state returned.  The frames cache is
also unchanged when the exception occurs at JSON parsing or while decoding
an image payload; but when the arm-state tensor conversion raises, the
frames cache has already been replaced by the newly decoded frames, and
those frames are returned instead of the cached ones. -/
theorem c3_decode_exception_fallback (s : DaemonState) (m : ObsMsg) :
    (m.parseOk = false → get_data s (some m) = (s, cachedTriple s)) ∧
    (hasBadImage m = true → get_data s (some m) = (s, cachedTriple s)) ∧
    (m.parseOk = true → hasBadImage m = false → m.arm = ArmField.malformed →
      get_data s (some m) =
        ({ s with last_frames := decodedFrames m },
         (decodedFrames m, s.last_present_speed, s.last_remote_arm_state))) := by
  refine ⟨?_, ?_, ?_⟩
  · intro hp
    rw [get_data_some, hp]
    simp
  · intro hb
    rw [get_data_some, hb]
    cases hp : m.parseOk
    · simp
    · simp
  · intro hp hb ha
    rw [get_data_some, hp, hb, ha]
    simp

/-- Witness for the amended C3: the parse-failure message leaves
everything cached; the concrete malformed-arm message keeps the speed and
arm caches but has already replaced the frames cache. -/
theorem c3_decode_exception_fallback_witness :
    ((⟨false, [], [], ArmField.absent⟩ : ObsMsg).parseOk = false ∧
      get_data c3State (some ⟨false, [], [], ArmField.absent⟩)
        = (c3State, cachedTriple c3State)) ∧
    (c3Msg.parseOk = true ∧ hasBadImage c3Msg = false ∧
      c3Msg.arm = ArmField.malformed ∧
      get_data c3State (some c3Msg) =
        ({ c3State with last_frames := decodedFrames c3Msg },
         (decodedFrames c3Msg, c3State.last_present_speed,
          c3State.last_remote_arm_state))) :=
  ⟨⟨rfl, (c3_decode_exception_fallback c3State ⟨false, [], [], ArmField.absent⟩).1 rfl⟩,
   ⟨rfl, by decide, rfl,
    (c3_decode_exception_fallback c3State c3Msg).2.2 rfl (by decide) rfl⟩⟩

/-! ## Helper lemmas: rounding, bit masks, encode/decode -/

/-- `steps_per_deg` is positive. -/
theorem steps_pos : (0 : ℝ) < steps_per_deg := by norm_num [steps_per_deg]

/-- Python rounding differs from its argument by at most one half. -/
theorem pyround_sub_abs (x : ℝ) : |(pyround x : ℝ) - x| ≤ 1 / 2 := by
  unfold pyround
  split_ifs with h he
  · have h2 : x - ⌊x⌋ = 1 / 2 := by rw [Int.self_sub_floor]; exact h
    have h3 : (⌊x⌋ : ℝ) - x = -(1 / 2) := by linarith
    rw [h3, abs_neg, abs_of_nonneg (by norm_num : (0 : ℝ) ≤ 1 / 2)]
  · have h2 : x - ⌊x⌋ = 1 / 2 := by rw [Int.self_sub_floor]; exact h
    have h3 : ((⌊x⌋ + 1 : ℤ) : ℝ) - x = 1 / 2 := by push_cast; linarith
    rw [h3, abs_of_nonneg (by norm_num : (0 : ℝ) ≤ 1 / 2)]
  · rw [abs_sub_comm]
    exact abs_sub_round x

/-- Python rounding fixes the integers. -/
theorem pyround_intCast (n : ℤ) : pyround (n : ℝ) = n := by
  unfold pyround
  rw [Int.fract_intCast]
  norm_num

/-- Python rounding of a nonnegative value is nonnegative. -/
theorem pyround_nonneg {x : ℝ} (h : 0 ≤ x) : 0 ≤ pyround x := by
  unfold pyround
  split_ifs with hf he
  · exact Int.floor_nonneg.mpr h
  · have := Int.floor_nonneg.mpr h
    omega
  · rw [round_eq]
    positivity

/-- Python rounding respects integer upper bounds. -/
theorem pyround_le_int {x : ℝ} {c : ℤ} (h : x ≤ c) : pyround x ≤ c := by
  unfold pyround
  split_ifs with hf he
  · exact_mod_cast (Int.floor_le_floor h).trans_eq (Int.floor_intCast c)
  · have hlt : (⌊x⌋ : ℝ) < x := by
      by_contra hc
      push_neg at hc
      have h0 := Int.floor_le x
      have hx : x = ⌊x⌋ := le_antisymm hc h0
      rw [hx, Int.fract_intCast] at hf
      norm_num at hf
    have h1 : (⌊x⌋ : ℝ) < (c : ℝ) := lt_of_lt_of_le hlt h
    have h2 : ⌊x⌋ < c := by exact_mod_cast h1
    omega
  · rw [round_eq]
    have h1 : ⌊x + 1 / 2⌋ ≤ ⌊(c : ℝ) + 1 / 2⌋ := Int.floor_le_floor (by linarith)
    have hc : ⌊(c : ℝ) + 1 / 2⌋ = c := by
      rw [Int.floor_eq_iff]
      constructor
      · linarith
      · linarith
    omega

/-- A number below the sign bit has no bits at positions 15 and above. -/
theorem nat_testBit_ge {m i : ℕ} (hm : m < 0x8000) (hi : 15 ≤ i) :
    m.testBit i = false := by
  apply Nat.testBit_lt_two_pow
  calc m < 0x8000 := hm
    _ = 2 ^ 15 := by norm_num
    _ ≤ 2 ^ i := Nat.pow_le_pow_right (by norm_num) hi

/-- Bits of the 15-bit mask `0x7FFF`. -/
theorem mask_testBit (i : ℕ) : (0x7FFF : ℕ).testBit i = decide (i < 15) := by
  have h := Nat.testBit_two_pow_sub_one 15 i
  norm_num at h
  exact h

/-- Bits of the sign bit `0x8000`. -/
theorem signbit_testBit (i : ℕ) : (0x8000 : ℕ).testBit i = decide (i = 15) := by
  rcases eq_or_ne i 15 with hi | hi
  · subst hi
    have h : (0x8000 : ℕ) = 2 ^ 15 := by norm_num
    rw [h, Nat.testBit_two_pow_self]
    simp
  · have h : (0x8000 : ℕ) = 2 ^ 15 := by norm_num
    rw [h, Nat.testBit_two_pow_of_ne (Ne.symm hi)]
    simp [hi]

/-- Masking a 15-bit value with `0x7FFF` is the identity. -/
theorem nat_land_mask {m : ℕ} (h : m < 0x8000) : m &&& 0x7FFF = m := by
  apply Nat.eq_of_testBit_eq
  intro i
  rw [Nat.testBit_land, mask_testBit]
  rcases Nat.lt_or_ge i 15 with hi | hi
  · simp [hi]
  · simp [Nat.not_lt.mpr hi, nat_testBit_ge h hi]

/-- Masking recovers the magnitude after the sign bit is set. -/
theorem nat_lor_mask {m : ℕ} (h : m < 0x8000) : (m ||| 0x8000) &&& 0x7FFF = m := by
  apply Nat.eq_of_testBit_eq
  intro i
  rw [Nat.testBit_land, Nat.testBit_lor, mask_testBit, signbit_testBit]
  rcases Nat.lt_or_ge i 15 with hi | hi
  · simp [hi, Nat.ne_of_lt hi]
  · simp [Nat.not_lt.mpr hi, nat_testBit_ge h hi]

/-- A 15-bit value has a clear sign bit. -/
theorem nat_land_signbit {m : ℕ} (h : m < 0x8000) : m &&& 0x8000 = 0 := by
  apply Nat.eq_of_testBit_eq
  intro i
  rw [Nat.testBit_land, signbit_testBit, Nat.zero_testBit]
  rcases eq_or_ne i 15 with hi | hi
  · subst hi
    simp [nat_testBit_ge h (le_refl 15)]
  · simp [hi]

/-- Setting the sign bit always leaves it set. -/
theorem nat_lor_signbit (m : ℕ) : (m ||| 0x8000) &&& 0x8000 ≠ 0 := by
  intro hcon
  have h := congrArg (fun n => n.testBit 15) hcon
  simp only [Nat.testBit_land, Nat.testBit_lor, signbit_testBit,
    Nat.zero_testBit] at h
  simp at h

/-- `Int.land` agrees with `Nat.land` on the mask, under the coercion. -/
theorem int_land_mask_coe (a : ℕ) :
    Int.land (a : ℤ) 0x7FFF = ((a &&& 0x7FFF : ℕ) : ℤ) := rfl

/-- `Int.land` agrees with `Nat.land` on the sign bit, under the
coercion. -/
theorem int_land_signbit_coe (a : ℕ) :
    Int.land (a : ℤ) 0x8000 = ((a &&& 0x8000 : ℕ) : ℤ) := rfl

/-- Under no clamping, `degps_to_raw` is the rounded magnitude with the
sign bit set for negative inputs. -/
theorem degps_to_raw_eq {d : ℝ} (h : |d| * steps_per_deg ≤ 0x7FFF) :
    (pyround (|d| * steps_per_deg)).toNat ≤ 0x7FFF ∧
    degps_to_raw d =
      if d < 0 then (pyround (|d| * steps_per_deg)).toNat ||| 0x8000
      else (pyround (|d| * steps_per_deg)).toNat := by
  have hle : pyround (|d| * steps_per_deg) ≤ (0x7FFF : ℤ) :=
    pyround_le_int (by exact_mod_cast h)
  have hN : (pyround (|d| * steps_per_deg)).toNat ≤ 0x7FFF := by omega
  refine ⟨hN, ?_⟩
  unfold degps_to_raw
  have hclamp : ¬ (0x7FFF < (pyround (|d| * steps_per_deg)).toNat) := by omega
  rw [if_neg hclamp]
  split_ifs with hs
  · rfl
  · exact nat_land_mask (by omega)

/-- Decoding a plain 15-bit magnitude. -/
theorem raw_to_degps_coe_pos {n : ℕ} (h : n ≤ 0x7FFF) :
    raw_to_degps (n : ℤ) = (n : ℝ) / steps_per_deg := by
  unfold raw_to_degps
  rw [int_land_mask_coe, int_land_signbit_coe, nat_land_mask (by omega),
    nat_land_signbit (by omega)]
  simp

/-- Decoding a 15-bit magnitude wearing the sign bit. -/
theorem raw_to_degps_coe_neg {n : ℕ} (h : n ≤ 0x7FFF) :
    raw_to_degps ((n ||| 0x8000 : ℕ) : ℤ) = -((n : ℝ) / steps_per_deg) := by
  unfold raw_to_degps
  have hsb : Int.land ((n ||| 0x8000 : ℕ) : ℤ) 0x8000 ≠ 0 := by
    rw [int_land_signbit_coe]
    intro hcon
    exact nat_lor_signbit n (by exact_mod_cast hcon)
  rw [if_pos hsb, int_land_mask_coe, nat_lor_mask (by omega)]
  push_cast
  ring

/-- Quantisation error bound of one encode/decode round trip within the
unsaturated range. -/
theorem decode_encode_close {d : ℝ} (h : |d| * steps_per_deg ≤ 3000) :
    |raw_to_degps ((degps_to_raw d : ℕ) : ℤ) - d| ≤ 1 / 2 / steps_per_deg := by
  have h7 : |d| * steps_per_deg ≤ 0x7FFF := by
    calc |d| * steps_per_deg ≤ 3000 := h
      _ ≤ 0x7FFF := by norm_num
  obtain ⟨hN, henc⟩ := degps_to_raw_eq h7
  set N : ℕ := (pyround (|d| * steps_per_deg)).toNat with hNdef
  have hpos : (0 : ℝ) ≤ |d| * steps_per_deg :=
    mul_nonneg (abs_nonneg d) (le_of_lt steps_pos)
  have hNR : (N : ℝ) = ((pyround (|d| * steps_per_deg) : ℤ) : ℝ) := by
    rw [hNdef]
    exact_mod_cast congrArg Int.cast (Int.toNat_of_nonneg (pyround_nonneg hpos))
  have hclose : |(N : ℝ) - |d| * steps_per_deg| ≤ 1 / 2 := by
    rw [hNR]
    exact pyround_sub_abs _
  rcases lt_or_ge d 0 with hd | hd
  · rw [henc, if_pos hd, raw_to_degps_coe_neg hN]
    rw [abs_of_neg hd] at hclose
    have key : -((N : ℝ) / steps_per_deg) - d
        = -(((N : ℝ) - -d * steps_per_deg) / steps_per_deg) := by
      rw [sub_div, mul_div_assoc, div_self (ne_of_gt steps_pos), mul_one]
      ring
    rw [key, abs_neg, abs_div, abs_of_pos steps_pos]
    exact (div_le_div_iff_of_pos_right steps_pos).mpr hclose
  · rw [henc, if_neg (not_lt.mpr hd), raw_to_degps_coe_pos hN]
    rw [abs_of_nonneg hd] at hclose
    have key : (N : ℝ) / steps_per_deg - d
        = ((N : ℝ) - d * steps_per_deg) / steps_per_deg := by
      rw [sub_div, mul_div_assoc, div_self (ne_of_gt steps_pos), mul_one]
    rw [key, abs_div, abs_of_pos steps_pos]
    exact (div_le_div_iff_of_pos_right steps_pos).mpr hclose

/-- The low 15 bits of an encoded command respect any magnitude bound that
held before encoding. -/
theorem encode_mag_le {d : ℝ} {c : ℕ} (hc : c ≤ 0x7FFF)
    (h : |d| * steps_per_deg ≤ (c : ℝ)) :
    degps_to_raw d &&& 0x7FFF ≤ c := by
  have h7 : |d| * steps_per_deg ≤ 0x7FFF := by
    calc |d| * steps_per_deg ≤ (c : ℝ) := h
      _ ≤ 0x7FFF := by exact_mod_cast hc
  obtain ⟨hN, henc⟩ := degps_to_raw_eq h7
  have hNc : (pyround (|d| * steps_per_deg)).toNat ≤ c := by
    have := pyround_le_int (c := (c : ℤ)) (by exact_mod_cast h)
    omega
  rw [henc]
  split_ifs with hs
  · rw [nat_lor_mask (by omega)]
    exact hNc
  · rw [nat_land_mask (by omega)]
    exact hNc

/-! ## Helper lemmas: kinematics -/

/-- Cosine of the first mounting angle (150°). -/
theorem cos_angle0 : Real.cos (wheelAngles 0) = -(Real.sqrt 3 / 2) := by
  have h : wheelAngles 0 = Real.pi - Real.pi / 6 := by
    show (150 : ℝ) * (Real.pi / 180) = _
    ring
  rw [h, Real.cos_pi_sub, Real.cos_pi_div_six]

/-- Sine of the first mounting angle (150°). -/
theorem sin_angle0 : Real.sin (wheelAngles 0) = 1 / 2 := by
  have h : wheelAngles 0 = Real.pi - Real.pi / 6 := by
    show (150 : ℝ) * (Real.pi / 180) = _
    ring
  rw [h, Real.sin_pi_sub, Real.sin_pi_div_six]

/-- Cosine of the second mounting angle (30°). -/
theorem cos_angle1 : Real.cos (wheelAngles 1) = Real.sqrt 3 / 2 := by
  have h : wheelAngles 1 = Real.pi / 6 := by
    show (30 : ℝ) * (Real.pi / 180) = _
    ring
  rw [h, Real.cos_pi_div_six]

/-- Sine of the second mounting angle (30°). -/
theorem sin_angle1 : Real.sin (wheelAngles 1) = 1 / 2 := by
  have h : wheelAngles 1 = Real.pi / 6 := by
    show (30 : ℝ) * (Real.pi / 180) = _
    ring
  rw [h, Real.sin_pi_div_six]

/-- Cosine of the third mounting angle (−90°). -/
theorem cos_angle2 : Real.cos (wheelAngles 2) = 0 := by
  have h : wheelAngles 2 = -(Real.pi / 2) := by
    show ((-90) : ℝ) * (Real.pi / 180) = _
    ring
  rw [h, Real.cos_neg, Real.cos_pi_div_two]

/-- Sine of the third mounting angle (−90°). -/
theorem sin_angle2 : Real.sin (wheelAngles 2) = -1 := by
  have h : wheelAngles 2 = -(Real.pi / 2) := by
    show ((-90) : ℝ) * (Real.pi / 180) = _
    ring
  rw [h, Real.sin_neg, Real.sin_pi_div_two]

/-- √3 squares to 3. -/
theorem sqrt3_sq : Real.sqrt 3 * Real.sqrt 3 = 3 :=
  Real.mul_self_sqrt (by norm_num)

/-- The explicit inverse entries of `bodyFromWheelDegps` undo the forward
kinematic matrix exactly over the reals: they are `np.linalg.inv(m)`. -/
theorem kin_exact (x y θ : ℝ) :
    bodyFromWheelDegps (wheelDegps x y θ 0) (wheelDegps x y θ 1)
      (wheelDegps x y θ 2) = (x, y, θ) := by
  have hpi := Real.pi_ne_zero
  have hw : wheel_radius ≠ 0 := by norm_num [wheel_radius]
  have hb : base_radius ≠ 0 := by norm_num [base_radius]
  have hcancel : ∀ s : ℝ,
      ((s / wheel_radius) * (180 / Real.pi)) * (Real.pi / 180) * wheel_radius
        = s := by
    intro s
    field_simp
    ring
  unfold bodyFromWheelDegps wheelDegps
  rw [cos_angle0, sin_angle0, cos_angle1, sin_angle1, cos_angle2, sin_angle2]
  rw [hcancel, hcancel, hcancel]
  refine Prod.ext ?_ (Prod.ext ?_ ?_)
  · show -(Real.sqrt 3) / 3 * (-(Real.sqrt 3 / 2) * x + 1 / 2 * y
        + base_radius * (θ * (Real.pi / 180)))
      + Real.sqrt 3 / 3 * (Real.sqrt 3 / 2 * x + 1 / 2 * y
        + base_radius * (θ * (Real.pi / 180)))
      + 0 * (0 * x + -1 * y + base_radius * (θ * (Real.pi / 180))) = x
    linear_combination (x / 3) * sqrt3_sq
  · show 1 / 3 * (-(Real.sqrt 3 / 2) * x + 1 / 2 * y
        + base_radius * (θ * (Real.pi / 180)))
      + 1 / 3 * (Real.sqrt 3 / 2 * x + 1 / 2 * y
        + base_radius * (θ * (Real.pi / 180)))
      + -(2 / 3) * (0 * x + -1 * y + base_radius * (θ * (Real.pi / 180))) = y
    ring
  · show (1 / (3 * base_radius) * (-(Real.sqrt 3 / 2) * x + 1 / 2 * y
        + base_radius * (θ * (Real.pi / 180)))
      + 1 / (3 * base_radius) * (Real.sqrt 3 / 2 * x + 1 / 2 * y
        + base_radius * (θ * (Real.pi / 180)))
      + 1 / (3 * base_radius) * (0 * x + -1 * y
        + base_radius * (θ * (Real.pi / 180))))
      * (180 / Real.pi) = θ
    field_simp
    ring

/-- Componentwise sensitivity of the inverse kinematics to perturbations
of the decoded wheel speeds. -/
theorem bodyFromWheelDegps_close (a0 a1 a2 b0 b1 b2 eta : ℝ)
    (h0 : |a0 - b0| ≤ eta) (h1 : |a1 - b1| ≤ eta) (h2 : |a2 - b2| ≤ eta) :
    |(bodyFromWheelDegps a0 a1 a2).1 - (bodyFromWheelDegps b0 b1 b2).1|
      ≤ Real.pi / 180 * wheel_radius * (2 * Real.sqrt 3 / 3) * eta ∧
    |(bodyFromWheelDegps a0 a1 a2).2.1 - (bodyFromWheelDegps b0 b1 b2).2.1|
      ≤ Real.pi / 180 * wheel_radius * (4 / 3) * eta ∧
    |(bodyFromWheelDegps a0 a1 a2).2.2 - (bodyFromWheelDegps b0 b1 b2).2.2|
      ≤ wheel_radius / base_radius * eta := by
  have hwpos : (0 : ℝ) < wheel_radius := by norm_num [wheel_radius]
  have hbpos : (0 : ℝ) < base_radius := by norm_num [base_radius]
  have hc : (0 : ℝ) ≤ Real.pi / 180 * wheel_radius :=
    mul_nonneg (by positivity) (le_of_lt hwpos)
  have hs3 : (0 : ℝ) ≤ Real.sqrt 3 := Real.sqrt_nonneg 3
  have habs1 : |(-(Real.sqrt 3)) / 3| = Real.sqrt 3 / 3 := by
    rw [abs_div, abs_neg, abs_of_nonneg hs3]
    norm_num
  have habs2 : |Real.sqrt 3 / 3| = Real.sqrt 3 / 3 := by
    rw [abs_div, abs_of_nonneg hs3]
    norm_num
  refine ⟨?_, ?_, ?_⟩
  · have hdiff : (bodyFromWheelDegps a0 a1 a2).1 - (bodyFromWheelDegps b0 b1 b2).1
        = (Real.pi / 180 * wheel_radius)
          * ((-(Real.sqrt 3)) / 3 * (a0 - b0) + Real.sqrt 3 / 3 * (a1 - b1)) := by
      unfold bodyFromWheelDegps
      ring
    calc |(bodyFromWheelDegps a0 a1 a2).1 - (bodyFromWheelDegps b0 b1 b2).1|
        = (Real.pi / 180 * wheel_radius)
          * |(-(Real.sqrt 3)) / 3 * (a0 - b0) + Real.sqrt 3 / 3 * (a1 - b1)| := by
          rw [hdiff, abs_mul, abs_of_nonneg hc]
      _ ≤ (Real.pi / 180 * wheel_radius)
          * (Real.sqrt 3 / 3 * eta + Real.sqrt 3 / 3 * eta) := by
          apply mul_le_mul_of_nonneg_left _ hc
          calc |(-(Real.sqrt 3)) / 3 * (a0 - b0) + Real.sqrt 3 / 3 * (a1 - b1)|
              ≤ |(-(Real.sqrt 3)) / 3 * (a0 - b0)| + |Real.sqrt 3 / 3 * (a1 - b1)| :=
                abs_add _ _
            _ = Real.sqrt 3 / 3 * |a0 - b0| + Real.sqrt 3 / 3 * |a1 - b1| := by
                rw [abs_mul, abs_mul, habs1, habs2]
            _ ≤ Real.sqrt 3 / 3 * eta + Real.sqrt 3 / 3 * eta := by
                gcongr
      _ = Real.pi / 180 * wheel_radius * (2 * Real.sqrt 3 / 3) * eta := by ring
  · have hdiff : (bodyFromWheelDegps a0 a1 a2).2.1 - (bodyFromWheelDegps b0 b1 b2).2.1
        = (Real.pi / 180 * wheel_radius)
          * (1 / 3 * (a0 - b0) + 1 / 3 * (a1 - b1) + (-(2 / 3)) * (a2 - b2)) := by
      unfold bodyFromWheelDegps
      ring
    calc |(bodyFromWheelDegps a0 a1 a2).2.1 - (bodyFromWheelDegps b0 b1 b2).2.1|
        = (Real.pi / 180 * wheel_radius)
          * |1 / 3 * (a0 - b0) + 1 / 3 * (a1 - b1) + (-(2 / 3)) * (a2 - b2)| := by
          rw [hdiff, abs_mul, abs_of_nonneg hc]
      _ ≤ (Real.pi / 180 * wheel_radius)
          * (1 / 3 * eta + 1 / 3 * eta + 2 / 3 * eta) := by
          apply mul_le_mul_of_nonneg_left _ hc
          calc |1 / 3 * (a0 - b0) + 1 / 3 * (a1 - b1) + (-(2 / 3)) * (a2 - b2)|
              ≤ |1 / 3 * (a0 - b0) + 1 / 3 * (a1 - b1)| + |(-(2 / 3)) * (a2 - b2)| :=
                abs_add _ _
            _ ≤ |1 / 3 * (a0 - b0)| + |1 / 3 * (a1 - b1)| + |(-(2 / 3)) * (a2 - b2)| := by
                have := abs_add (1 / 3 * (a0 - b0)) (1 / 3 * (a1 - b1))
                linarith
            _ = 1 / 3 * |a0 - b0| + 1 / 3 * |a1 - b1| + 2 / 3 * |a2 - b2| := by
                rw [abs_mul, abs_mul, abs_mul, abs_neg,
                  abs_of_nonneg (by norm_num : (0 : ℝ) ≤ 1 / 3),
                  abs_of_nonneg (by norm_num : (0 : ℝ) ≤ 2 / 3)]
            _ ≤ 1 / 3 * eta + 1 / 3 * eta + 2 / 3 * eta := by
                gcongr
      _ = Real.pi / 180 * wheel_radius * (4 / 3) * eta := by ring
  · have hdiff : (bodyFromWheelDegps a0 a1 a2).2.2 - (bodyFromWheelDegps b0 b1 b2).2.2
        = (wheel_radius / (3 * base_radius))
          * ((a0 - b0) + (a1 - b1) + (a2 - b2)) := by
      unfold bodyFromWheelDegps
      field_simp
      ring
    have hc2 : (0 : ℝ) ≤ wheel_radius / (3 * base_radius) := by
      apply div_nonneg (le_of_lt hwpos)
      linarith
    calc |(bodyFromWheelDegps a0 a1 a2).2.2 - (bodyFromWheelDegps b0 b1 b2).2.2|
        = (wheel_radius / (3 * base_radius))
          * |(a0 - b0) + (a1 - b1) + (a2 - b2)| := by
          rw [hdiff, abs_mul, abs_of_nonneg hc2]
      _ ≤ (wheel_radius / (3 * base_radius)) * (eta + eta + eta) := by
          apply mul_le_mul_of_nonneg_left _ hc2
          calc |(a0 - b0) + (a1 - b1) + (a2 - b2)|
              ≤ |(a0 - b0) + (a1 - b1)| + |a2 - b2| := abs_add _ _
            _ ≤ |a0 - b0| + |a1 - b1| + |a2 - b2| := by
                have := abs_add (a0 - b0) (a1 - b1)
                linarith
            _ ≤ eta + eta + eta := by linarith
      _ = wheel_radius / base_radius * eta := by
          field_simp
          ring

/-- Every entry of `raw_floats` is bounded by their maximum. -/
theorem rawFloats_le_max (x y θ : ℝ) (i : Fin 3) :
    rawFloats x y θ i ≤ maxRawComputed x y θ := by
  fin_cases i
  · exact le_max_left _ _
  · exact le_trans (le_max_left _ _) (le_max_right _ _)
  · exact le_trans (le_max_right _ _) (le_max_right _ _)

/-- The produced wheel-raw dictionary decodes back through the named keys:
`wheel_raw_to_body` reads exactly the three entries `body_to_wheel_raw`
wrote. -/
theorem wheel_raw_to_body_dict (x y θ : ℝ) :
    wheel_raw_to_body (body_to_wheel_raw_dict x y θ)
      = bodyFromWheelDegps
          (raw_to_degps ((body_to_wheel_raw x y θ 0 : ℕ) : ℤ))
          (raw_to_degps ((body_to_wheel_raw x y θ 1 : ℕ) : ℤ))
          (raw_to_degps ((body_to_wheel_raw x y θ 2 : ℕ) : ℤ)) := rfl

/-! ## Theorems: raw codec, kinematics round trip, saturation -/

/-- Claim C5: encoding a signed speed whose magnitude is a representable
step count (15-bit) and decoding it recovers the speed exactly, for both
signs; the low 15 bits of the encoded word are exactly the magnitude. -/
theorem c5_raw_codec_identity (m : ℕ) (h : m ≤ 0x7FFF) :
    raw_to_degps ((degps_to_raw ((m : ℝ) / steps_per_deg) : ℕ) : ℤ)
      = (m : ℝ) / steps_per_deg ∧
    raw_to_degps ((degps_to_raw (-((m : ℝ) / steps_per_deg)) : ℕ) : ℤ)
      = -((m : ℝ) / steps_per_deg) ∧
    degps_to_raw ((m : ℝ) / steps_per_deg) &&& 0x7FFF = m ∧
    degps_to_raw (-((m : ℝ) / steps_per_deg)) &&& 0x7FFF = m := by
  have hsne : steps_per_deg ≠ 0 := ne_of_gt steps_pos
  have hdnn : (0 : ℝ) ≤ (m : ℝ) / steps_per_deg :=
    div_nonneg (Nat.cast_nonneg m) (le_of_lt steps_pos)
  have habs : |(m : ℝ) / steps_per_deg| * steps_per_deg = (m : ℝ) := by
    rw [abs_of_nonneg hdnn, div_mul_cancel₀ _ hsne]
  have habsneg : |(-((m : ℝ) / steps_per_deg))| * steps_per_deg = (m : ℝ) := by
    rw [abs_neg]
    exact habs
  have hm7 : ((m : ℝ)) ≤ (0x7FFF : ℝ) := by exact_mod_cast h
  have hpr : (pyround ((m : ℝ))).toNat = m := by
    have h1 : ((m : ℤ) : ℝ) = (m : ℝ) := by push_cast; ring
    have h2 := pyround_intCast (m : ℤ)
    rw [h1] at h2
    rw [h2]
    exact Int.toNat_natCast m
  obtain ⟨hN1, henc1⟩ := degps_to_raw_eq (d := (m : ℝ) / steps_per_deg)
    (by rw [habs]; exact hm7)
  rw [habs, hpr] at henc1
  rw [if_neg (not_lt.mpr hdnn)] at henc1
  obtain ⟨hN2, henc2⟩ := degps_to_raw_eq (d := -((m : ℝ) / steps_per_deg))
    (by rw [habsneg]; exact hm7)
  rw [habsneg, hpr] at henc2
  rcases Nat.eq_zero_or_pos m with hm0 | hmpos
  · subst hm0
    have hz : -((Nat.cast 0 : ℝ) / steps_per_deg) = 0 := by
      simp
    rw [hz] at henc2 ⊢
    rw [if_neg (by norm_num : ¬ ((0 : ℝ) < 0))] at henc2
    refine ⟨?_, ?_, ?_, ?_⟩
    · rw [henc1, raw_to_degps_coe_pos h]
    · rw [henc2, raw_to_degps_coe_pos h]
      simp
    · rw [henc1]
      exact nat_land_mask (by omega)
    · rw [henc2]
      exact nat_land_mask (by omega)
  · have hlt : -((m : ℝ) / steps_per_deg) < 0 := by
      apply neg_lt_zero.mpr
      apply div_pos _ steps_pos
      exact_mod_cast hmpos
    rw [if_pos hlt] at henc2
    refine ⟨?_, ?_, ?_, ?_⟩
    · rw [henc1, raw_to_degps_coe_pos h]
    · rw [henc2, raw_to_degps_coe_neg h]
    · rw [henc1]
      exact nat_land_mask (by omega)
    · rw [henc2]
      exact nat_lor_mask (by omega)

/-- Witness for C5 at magnitude 300. -/
theorem c5_raw_codec_identity_witness :
    (300 : ℕ) ≤ 0x7FFF ∧
    (raw_to_degps ((degps_to_raw (((300 : ℕ) : ℝ) / steps_per_deg) : ℕ) : ℤ)
        = ((300 : ℕ) : ℝ) / steps_per_deg ∧
     raw_to_degps ((degps_to_raw (-(((300 : ℕ) : ℝ) / steps_per_deg)) : ℕ) : ℤ)
        = -(((300 : ℕ) : ℝ) / steps_per_deg) ∧
     degps_to_raw (((300 : ℕ) : ℝ) / steps_per_deg) &&& 0x7FFF = 300 ∧
     degps_to_raw (-(((300 : ℕ) : ℝ) / steps_per_deg)) &&& 0x7FFF = 300) :=
  ⟨by norm_num, c5_raw_codec_identity 300 (by norm_num)⟩

/-- Claim C4: within the unsaturated range, the inverse transform applied
to the forward transform's raw dictionary recovers the commanded body
velocity up to the explicit quantisation tolerance (half a raw tick per
wheel, propagated through the inverse kinematics). -/
theorem c4_kinematics_roundtrip (x y θ : ℝ)
    (h : maxRawComputed x y θ ≤ (max_raw : ℝ)) :
    |(wheel_raw_to_body (body_to_wheel_raw_dict x y θ)).1 - x|
      ≤ Real.pi / 180 * wheel_radius * (2 * Real.sqrt 3 / 3)
        * (1 / 2 / steps_per_deg) ∧
    |(wheel_raw_to_body (body_to_wheel_raw_dict x y θ)).2.1 - y|
      ≤ Real.pi / 180 * wheel_radius * (4 / 3) * (1 / 2 / steps_per_deg) ∧
    |(wheel_raw_to_body (body_to_wheel_raw_dict x y θ)).2.2 - θ|
      ≤ wheel_radius / base_radius * (1 / 2 / steps_per_deg) := by
  have hns : ¬ (maxRawComputed x y θ > (max_raw : ℝ)) := not_lt.mpr h
  have hsc : ∀ i : Fin 3, scaledDegps x y θ i = wheelDegps x y θ i :=
    fun _ => if_neg hns
  have h3000 : ((max_raw : ℕ) : ℝ) = 3000 := by norm_num [max_raw]
  have hbound : ∀ i : Fin 3, |wheelDegps x y θ i| * steps_per_deg ≤ 3000 := by
    intro i
    have h1 := rawFloats_le_max x y θ i
    unfold rawFloats at h1
    calc |wheelDegps x y θ i| * steps_per_deg
        ≤ maxRawComputed x y θ := h1
      _ ≤ 3000 := by rw [← h3000]; exact h
  have hclose : ∀ i : Fin 3,
      |raw_to_degps ((body_to_wheel_raw x y θ i : ℕ) : ℤ)
        - wheelDegps x y θ i| ≤ 1 / 2 / steps_per_deg := by
    intro i
    have hB : body_to_wheel_raw x y θ i
        = degps_to_raw (wheelDegps x y θ i) := by
      unfold body_to_wheel_raw
      rw [hsc i]
    rw [hB]
    exact decode_encode_close (hbound i)
  have hid := kin_exact x y θ
  have hx : (bodyFromWheelDegps (wheelDegps x y θ 0) (wheelDegps x y θ 1)
      (wheelDegps x y θ 2)).1 = x := by rw [hid]
  have hy : (bodyFromWheelDegps (wheelDegps x y θ 0) (wheelDegps x y θ 1)
      (wheelDegps x y θ 2)).2.1 = y := by rw [hid]
  have ht : (bodyFromWheelDegps (wheelDegps x y θ 0) (wheelDegps x y θ 1)
      (wheelDegps x y θ 2)).2.2 = θ := by rw [hid]
  obtain ⟨hcx, hcy, hct⟩ :=
    bodyFromWheelDegps_close
      (raw_to_degps ((body_to_wheel_raw x y θ 0 : ℕ) : ℤ))
      (raw_to_degps ((body_to_wheel_raw x y θ 1 : ℕ) : ℤ))
      (raw_to_degps ((body_to_wheel_raw x y θ 2 : ℕ) : ℤ))
      (wheelDegps x y θ 0) (wheelDegps x y θ 1) (wheelDegps x y θ 2)
      (1 / 2 / steps_per_deg) (hclose 0) (hclose 1) (hclose 2)
  rw [hx] at hcx
  rw [hy] at hcy
  rw [ht] at hct
  rw [wheel_raw_to_body_dict]
  exact ⟨hcx, hcy, hct⟩

/-- Witness for C4 at the pure-rotation command (0, 0, 10 deg/s), which
does not trigger saturation. -/
theorem c4_kinematics_roundtrip_witness :
    maxRawComputed 0 0 10 ≤ (max_raw : ℝ) ∧
    (|(wheel_raw_to_body (body_to_wheel_raw_dict 0 0 10)).1 - 0|
      ≤ Real.pi / 180 * wheel_radius * (2 * Real.sqrt 3 / 3)
        * (1 / 2 / steps_per_deg) ∧
    |(wheel_raw_to_body (body_to_wheel_raw_dict 0 0 10)).2.1 - 0|
      ≤ Real.pi / 180 * wheel_radius * (4 / 3) * (1 / 2 / steps_per_deg) ∧
    |(wheel_raw_to_body (body_to_wheel_raw_dict 0 0 10)).2.2 - 10|
      ≤ wheel_radius / base_radius * (1 / 2 / steps_per_deg)) := by
  have hdeg : ∀ i : Fin 3, wheelDegps 0 0 10 i = 25 := by
    intro i
    unfold wheelDegps
    rw [mul_zero, mul_zero, zero_add, zero_add,
      show base_radius = 1 / 8 from by norm_num [base_radius],
      show wheel_radius = 1 / 20 from by norm_num [wheel_radius]]
    have hpi := Real.pi_ne_zero
    field_simp
    ring
  have hmax : maxRawComputed 0 0 10 ≤ (max_raw : ℝ) := by
    unfold maxRawComputed rawFloats
    rw [hdeg 0, hdeg 1, hdeg 2,
      abs_of_nonneg (by norm_num : (0 : ℝ) ≤ 25), max_self, max_self]
    norm_num [steps_per_deg, max_raw]
  exact ⟨hmax, c4_kinematics_roundtrip 0 0 10 hmax⟩

/-- Claim C6: when the forward transform triggers saturation scaling, the
ratio between any two wheels' commanded raw magnitudes is unchanged
(cross-multiplied form, so zero magnitudes need no special case), and the
final raw magnitude of every wheel (its low 15 bits) is at most
`max_raw`. -/
theorem c6_saturation_scaling (x y θ : ℝ)
    (h : maxRawComputed x y θ > (max_raw : ℝ)) :
    (∀ i j : Fin 3,
      (|scaledDegps x y θ i| * steps_per_deg) * rawFloats x y θ j
        = rawFloats x y θ i * (|scaledDegps x y θ j| * steps_per_deg)) ∧
    (∀ i : Fin 3, body_to_wheel_raw x y θ i &&& 0x7FFF ≤ max_raw) := by
  have h3000 : ((max_raw : ℕ) : ℝ) = 3000 := by norm_num [max_raw]
  have hmaxpos : (0 : ℝ) < maxRawComputed x y θ :=
    lt_trans (by rw [h3000]; norm_num) h
  have hcnn : (0 : ℝ) ≤ (max_raw : ℝ) / maxRawComputed x y θ :=
    div_nonneg (by rw [h3000]; norm_num) (le_of_lt hmaxpos)
  have hsc : ∀ i : Fin 3, scaledDegps x y θ i
      = wheelDegps x y θ i * ((max_raw : ℝ) / maxRawComputed x y θ) :=
    fun _ => if_pos h
  have habs : ∀ i : Fin 3, |scaledDegps x y θ i|
      = |wheelDegps x y θ i| * ((max_raw : ℝ) / maxRawComputed x y θ) := by
    intro i
    rw [hsc i, abs_mul, abs_of_nonneg hcnn]
  constructor
  · intro i j
    unfold rawFloats
    rw [habs i, habs j]
    ring
  · intro i
    have h1 : |wheelDegps x y θ i| * steps_per_deg ≤ maxRawComputed x y θ := by
      have h2 := rawFloats_le_max x y θ i
      unfold rawFloats at h2
      exact h2
    have hle : |scaledDegps x y θ i| * steps_per_deg ≤ ((max_raw : ℕ) : ℝ) := by
      rw [habs i]
      calc |wheelDegps x y θ i| * ((max_raw : ℝ) / maxRawComputed x y θ)
            * steps_per_deg
          = (|wheelDegps x y θ i| * steps_per_deg)
            * ((max_raw : ℝ) / maxRawComputed x y θ) := by ring
        _ ≤ maxRawComputed x y θ * ((max_raw : ℝ) / maxRawComputed x y θ) :=
            mul_le_mul_of_nonneg_right h1 hcnn
        _ = (max_raw : ℝ) := by
            field_simp
    unfold body_to_wheel_raw
    exact encode_mag_le (by norm_num [max_raw]) hle

/-- Witness for C6 at the fast rotation command (0, 0, 1000 deg/s), which
saturates every wheel. -/
theorem c6_saturation_scaling_witness :
    maxRawComputed 0 0 1000 > (max_raw : ℝ) ∧
    ((∀ i j : Fin 3,
      (|scaledDegps 0 0 1000 i| * steps_per_deg) * rawFloats 0 0 1000 j
        = rawFloats 0 0 1000 i * (|scaledDegps 0 0 1000 j| * steps_per_deg)) ∧
    (∀ i : Fin 3, body_to_wheel_raw 0 0 1000 i &&& 0x7FFF ≤ max_raw)) := by
  have hdeg : ∀ i : Fin 3, wheelDegps 0 0 1000 i = 2500 := by
    intro i
    unfold wheelDegps
    rw [mul_zero, mul_zero, zero_add, zero_add,
      show base_radius = 1 / 8 from by norm_num [base_radius],
      show wheel_radius = 1 / 20 from by norm_num [wheel_radius]]
    have hpi := Real.pi_ne_zero
    field_simp
    ring
  have hmax : maxRawComputed 0 0 1000 > (max_raw : ℝ) := by
    unfold maxRawComputed rawFloats
    rw [hdeg 0, hdeg 1, hdeg 2,
      abs_of_nonneg (by norm_num : (0 : ℝ) ≤ 2500), max_self, max_self]
    norm_num [steps_per_deg, max_raw]
  exact ⟨hmax, c6_saturation_scaling 0 0 1000 hmax⟩

/-- Claim C10: `wheel_raw_to_body` treats a missing wheel key as the raw
value 0 (prepending an explicit zero entry for an absent key does not
change the result), and on a fresh connected daemon that has received no
message, `get_observation` succeeds and reports body velocity (0, 0, 0)
rather than raising. -/
theorem c10_missing_keys_default_zero (w : List (String × ℤ)) (k : String)
    (hk : k = kLeftWheel ∨ k = kBackWheel ∨ k = kRightWheel)
    (hmiss : w.lookup k = none) :
    wheel_raw_to_body ((k, 0) :: w) = wheel_raw_to_body w ∧
    ∀ cams : List CamCfg,
      get_observation true cams initialDaemonState none
        = Except.ok (initialDaemonState,
            ⟨List.replicate 6 0, (0, 0, 0), observationImages cams []⟩) := by
  constructor
  · rcases hk with hk | hk | hk
    all_goals
      subst hk
      unfold wheel_raw_to_body
      simp only [kLeftWheel, kBackWheel, kRightWheel] at hmiss ⊢
      simp [List.lookup, hmiss]
  · intro cams
    have hz : raw_to_degps 0 = 0 := by
      unfold raw_to_degps
      rw [show Int.land 0 0x8000 = 0 from rfl,
        show Int.land 0 0x7FFF = 0 from rfl]
      simp
    have hbody : wheel_raw_to_body ([] : List (String × ℤ)) = (0, 0, 0) := by
      show bodyFromWheelDegps (raw_to_degps 0) (raw_to_degps 0)
        (raw_to_degps 0) = (0, 0, 0)
      rw [hz]
      unfold bodyFromWheelDegps
      norm_num
    have hobs : get_observation true cams initialDaemonState none
        = Except.ok (initialDaemonState,
            ⟨List.replicate 6 0,
             ((wheel_raw_to_body []).1 * 1000,
              (wheel_raw_to_body []).2.1 * 1000,
              (wheel_raw_to_body []).2.2),
             observationImages cams []⟩) := rfl
    rw [hobs, hbody]
    norm_num

/-- Witness for C10: the empty dictionary with the left wheel key. -/
theorem c10_missing_keys_default_zero_witness :
    ((kLeftWheel = kLeftWheel ∨ kLeftWheel = kBackWheel
        ∨ kLeftWheel = kRightWheel) ∧
      ([] : List (String × ℤ)).lookup kLeftWheel = none) ∧
    (wheel_raw_to_body [(kLeftWheel, 0)] = wheel_raw_to_body [] ∧
     ∀ cams : List CamCfg,
       get_observation true cams initialDaemonState none
         = Except.ok (initialDaemonState,
             ⟨List.replicate 6 0, (0, 0, 0), observationImages cams []⟩)) :=
  ⟨⟨Or.inl rfl, rfl⟩, c10_missing_keys_default_zero [] kLeftWheel (Or.inl rfl) rfl⟩
